import Mathlib

/-!
# Verification of the bolt HTTP dispatch core (stefanb/echo, src/bolt.go)

Shallow embedding of the registration and dispatch logic of `bolt.go`,
together with spec-modelled definitions for the parts of the repository
(router.go, context.go, response.go) that are not present under src/.

Handlers are identified by natural numbers: for the claims considered here
only handler identity, order and (for the default fallback handlers) their
concrete effect on the response matter.
-/

namespace Bolt

/-! ## Go slice semantics

`Use` and `Handle` in bolt.go manipulate Go slices of `HandlerFunc`
(`b.handlers = append(b.handlers, h...)`, `h = append(b.handlers, h...)`).
Go's `append` reuses the backing array when spare capacity is available and
otherwise allocates a fresh array whose capacity is the needed length when
that exceeds twice the old capacity, and twice the old capacity otherwise
(the small-slice doubling rule of Go's `growslice`; malloc size-class
rounding does not change capacities for the pointer-sized elements and
small lengths that occur here). We model memory as a store of arrays
indexed by allocation order; a slice is a (array id, length, capacity)
triple. All slices in bolt.go start at offset 0 of their array, so no
offset field is needed. -/

/-- Memory: every array id maps to its contents (index → handler id,
default 0 for never-written cells); `nextArr` is the next fresh array id. -/
structure Mem where
  arrs : Nat → Nat → Nat
  nextArr : Nat

/-- A Go slice value: backing array id, length, capacity. -/
structure GSlice where
  arr : Nat
  len : Nat
  cap : Nat
deriving DecidableEq

/-- The empty memory; array id 0 is reserved for the nil slice. -/
def Mem.init : Mem := ⟨fun _ _ => 0, 1⟩

/-- A nil Go slice (`var handlers []HandlerFunc`). -/
def GSlice.nil : GSlice := ⟨0, 0, 0⟩

/-- Write the elements of `xs` into array `a` at positions `start`, `start+1`, …. -/
def Mem.writeSeq (m : Mem) (a start : Nat) (xs : List Nat) : Mem :=
  { m with
    arrs := fun b i =>
      if b = a ∧ start ≤ i ∧ i < start + xs.length then
        xs.getD (i - start) 0
      else m.arrs b i }

/-- Read the current contents of a slice out of memory. -/
def Mem.readSlice (m : Mem) (s : GSlice) : List Nat :=
  (List.range s.len).map (fun i => m.arrs s.arr i)

/-- Capacity growth of Go's `growslice` for small slices: the needed
length when it exceeds twice the old capacity, else twice the old
capacity. -/
def growCap (oldCap needed : Nat) : Nat :=
  if 2 * oldCap < needed then needed else 2 * oldCap

/-- Go's `append(s, xs...)`: if the extra elements fit within `s.cap` the
backing array is written in place and the result aliases it; otherwise a
fresh array is allocated, the old contents copied, and the new elements
written after them. -/
def goAppend (m : Mem) (s : GSlice) (xs : List Nat) : Mem × GSlice :=
  let needed := s.len + xs.length
  if needed ≤ s.cap then
    (m.writeSeq s.arr s.len xs, ⟨s.arr, needed, s.cap⟩)
  else
    let nc := growCap s.cap needed
    let a := m.nextArr
    let m1 := Mem.writeSeq { m with nextArr := a + 1 } a 0 (m.readSlice s)
    let m2 := m1.writeSeq a s.len xs
    (m2, ⟨a, needed, nc⟩)

/-! ## Registration state of a Bolt value

`Use` appends middleware to `b.handlers`. `Handle` computes
`h = append(b.handlers, h...)`, captures `h` and `l = len(h)` in a closure
and hands that closure to `Router.Add`; the chain bound to the route is
therefore the slice value `h` (read from live memory whenever the closure
runs) together with the captured length `l`. We record exactly that pair
per registered route. -/

/-- One registered route: method, path, captured chain slice `h` and
captured length `l` (mirroring the closure built in `Handle`). -/
structure Route where
  method : String
  path : String
  h : GSlice
  l : Nat
deriving DecidableEq

/-- Registration-relevant state of a `Bolt` value: the memory, the
middleware slice `b.handlers`, and the routes added so far. -/
structure RegState where
  mem : Mem
  handlers : GSlice
  routes : List Route

/-- The state of a freshly created Bolt: no middleware, no routes. -/
def RegState.init : RegState := ⟨Mem.init, GSlice.nil, []⟩

/-- Use: `b.handlers = append(b.handlers, h...)`. -/
def RegState.use (st : RegState) (hs : List Nat) : RegState :=
  let (m, s) := goAppend st.mem st.handlers hs
  { st with mem := m, handlers := s }

/-- Handle: `h = append(b.handlers, h...); l := len(h)`, and the route is
added with a closure capturing `h` and `l`. `b.handlers` itself is not
reassigned. -/
def RegState.handle (st : RegState) (method path : String) (hs : List Nat) :
    RegState :=
  let (m, h) := goAppend st.mem st.handlers hs
  { st with mem := m, routes := st.routes ++ [⟨method, path, h, h.len⟩] }

/-- Connect delegates to `Handle` with method `"CONNECT"`. -/
def RegState.connect (st : RegState) (path : String) (hs : List Nat) : RegState :=
  st.handle "CONNECT" path hs

/-- Delete delegates to `Handle` with method `"DELETE"`. -/
def RegState.delete (st : RegState) (path : String) (hs : List Nat) : RegState :=
  st.handle "DELETE" path hs

/-- Get delegates to `Handle` with method `"GET"`. -/
def RegState.get (st : RegState) (path : String) (hs : List Nat) : RegState :=
  st.handle "GET" path hs

/-- Head delegates to `Handle` with method `"HEAD"`. -/
def RegState.head (st : RegState) (path : String) (hs : List Nat) : RegState :=
  st.handle "HEAD" path hs

/-- Options delegates to `Handle` with method `"OPTIONS"`. -/
def RegState.options (st : RegState) (path : String) (hs : List Nat) : RegState :=
  st.handle "OPTIONS" path hs

/-- Patch delegates to `Handle` with method `"PATCH"`. -/
def RegState.patch (st : RegState) (path : String) (hs : List Nat) : RegState :=
  st.handle "PATCH" path hs

/-- Post delegates to `Handle` with method `"POST"`. -/
def RegState.post (st : RegState) (path : String) (hs : List Nat) : RegState :=
  st.handle "POST" path hs

/-- Put delegates to `Handle` with method `"PUT"`. -/
def RegState.put (st : RegState) (path : String) (hs : List Nat) : RegState :=
  st.handle "PUT" path hs

/-- Trace delegates to `Handle` with method `"TRACE"`. -/
def RegState.trace (st : RegState) (path : String) (hs : List Nat) : RegState :=
  st.handle "TRACE" path hs

/-- The chain a route's closure would install if dispatched in state `st`:
the captured slice read from the current memory. -/
def RegState.chainOf (st : RegState) (r : Route) : List Nat :=
  st.mem.readSlice r.h

/-! ## Dispatch: `ServeHTTP`

`ServeHTTP` (bolt.go lines 195-209) calls `b.Router.Find`, which yields a
handler `h` (possibly nil), a pooled `*Context` `c` and a status `s`; it
then resets `c`, runs `h` if non-nil, otherwise the configured not-found
or method-not-allowed handler depending on `s`, and finally puts `c` back
into the pool. `Find` itself lives in router.go, which is not under src/,
so dispatch is quantified over every possible `Find` result. We record
dispatch as a trace of events. -/

/-- Route-resolution status (`Matched`/`NotFound`/`NotAllowed`), the
three-way result declared in router.go and compared against in
`ServeHTTP`. Modelled from the spec: router.go is not under src/. -/
inductive Status where
  | Matched
  | NotFound
  | NotAllowed
deriving DecidableEq

/-- The part of a `Router.Find` result that `ServeHTTP` branches on: the
(possibly nil) route handler and the status. -/
structure FindRes where
  h : Option Nat
  status : Status
deriving DecidableEq

/-- Observable events of one `ServeHTTP` call. -/
inductive Ev where
  | reset
  | runRoute (h : Nat)
  | runNotFound
  | runNotAllowed
  | runInternal
  | poolPut
deriving DecidableEq

/-- Event trace of `ServeHTTP` for a given `Find` result: reset the
context; run the route handler if non-nil, else the fallback selected by
the status; put the context back into the pool. -/
def serveHTTP (r : FindRes) : List Ev :=
  Ev.reset ::
    (match r.h with
      | some hh => [Ev.runRoute hh]
      | none =>
        match r.status with
        | Status.NotFound => [Ev.runNotFound]
        | Status.NotAllowed => [Ev.runNotAllowed]
        | Status.Matched => []) ++ [Ev.poolPut]

/-! ## Context, chain execution and the default fallback handlers

context.go and response.go are not under src/. The execution state below
is modelled from the spec: a Context carries the bound Params, the scratch
Store, the chain cursor (initialized to the before-first-handler position,
`-1`, as the pool factory in bolt.go also shows), a halted flag and the
chain length; the response handle records the last status/body written.
`Next` advances the cursor and invokes the handler at the new position if
any remain; `Halt` marks the chain definitively terminated so that no
later `Next` invokes anything. -/

/-- Params with explicit Go-slice capacity: `make(Params, n)` yields
length `n` and capacity `n`; clearing to zero length retains capacity. -/
structure GoParams where
  data : List (String × String)
  cap : Nat
deriving DecidableEq

/-- Execution-relevant per-request context state. Modelled from the spec:
context.go is not under src/. -/
structure Ctx where
  params : GoParams
  store : List (String × String)
  i : Int
  l : Nat
  halted : Bool
  chain : Option (List Nat)
  req : Nat
  resp : Nat
  written : Option (Nat × String)
deriving DecidableEq

/-- Modelled from the spec: `reset(rw, r)` of context.go rebinds the live
request/response handles, clears Params to zero length (capacity
retained), clears Store, resets the cursor to the before-first-handler
position and clears any chain reference from a previous cycle. -/
def Ctx.reset (c : Ctx) (rw r : Nat) : Ctx :=
  { c with
    params := ⟨[], c.params.cap⟩
    store := []
    i := -1
    halted := false
    chain := none
    req := r
    resp := rw }

/-- Modelled from the spec: `Halt()` of context.go marks the chain
definitively terminated. -/
def Ctx.halt (c : Ctx) : Ctx := { c with halted := true }

/-- Modelled from the spec: the handler position a `Next()` call would
invoke, if any — `Next` advances the cursor and runs the handler at the
new position when one remains and the chain has not been halted. `none`
means no handler runs. -/
def Ctx.nextSelect (c : Ctx) : Option Int :=
  if c.halted then none
  else if c.i + 1 < (c.l : Int) then some (c.i + 1) else none

/-- Model of Go's `http.StatusText` at the three codes used in bolt.go. -/
def statusText (code : Nat) : String :=
  if code = 404 then "Not Found"
  else if code = 405 then "Method Not Allowed"
  else if code = 500 then "Internal Server Error"
  else ""

/-- Model of Go's `http.Error(w, error, code)`: writes the status code and
the error text followed by a newline through the response handle. -/
def Ctx.httpError (c : Ctx) (text : String) (code : Nat) : Ctx :=
  { c with written := some (code, text ++ "\n") }

/-- The default not-found handler built in `New`:
`http.Error(c.Response, http.StatusText(404), 404); c.Halt()`. -/
def defaultNotFoundHandler (c : Ctx) : Ctx :=
  (c.httpError (statusText 404) 404).halt

/-- The default method-not-allowed handler built in `New`:
`http.Error(c.Response, http.StatusText(405), 405); c.Halt()`. -/
def defaultMethodNotAllowedHandler (c : Ctx) : Ctx :=
  (c.httpError (statusText 405) 405).halt

/-- The default internal-server-error handler built in `New`:
`http.Error(c.Response, http.StatusText(500), 500); c.Halt()`. -/
def defaultInternalServerErrorHandler (c : Ctx) : Ctx :=
  (c.httpError (statusText 500) 500).halt

/-! ## The path matcher

Modelled from the spec: router.go is not under src/. A per-method prefix
structure over path segments; each node has literal children, at most one
parameter child (with its capture name), at most one wildcard child
(terminal, capturing the remainder of the path), and a method → chain
table on nodes terminating a route. Chains are identified by numbers. -/

/-- Modelled from the spec: a trie node of the path matcher (router.go is
not under src/). -/
inductive Node where
  | mk
      (literalChildren : List (String × Node))
      (paramChild : Option (String × Node))
      (wildcardChild : Option Node)
      (handlersByMethod : List (String × Nat))

def Node.literalChildren : Node → List (String × Node)
  | .mk l _ _ _ => l

def Node.paramChild : Node → Option (String × Node)
  | .mk _ p _ _ => p

def Node.wildcardChild : Node → Option Node
  | .mk _ _ w _ => w

def Node.handlersByMethod : Node → List (String × Nat)
  | .mk _ _ _ h => h

/-- Split a path into `/`-delimited segments, dropping the leading empty
segment of an absolute path. -/
def splitPath (p : String) : List String :=
  match p.splitOn "/" with
  | "" :: rest => rest
  | segs => segs

/-- Rebuild the remainder of a path from its segments (the single capture
bound by a wildcard, slashes included). -/
def joinSegs (segs : List String) : String :=
  String.intercalate "/" segs

/-- Modelled from the spec: trie descent of `Find`. At each level a
literal match is tried first, else the parameter child (binding the
segment under the capture name), else the wildcard child (binding the
whole remainder as a single capture and stopping). Returns the terminal
node and the captures, or `none` when descent fails. -/
def Node.descend : Node → List String → Option (Node × List (String × String))
  | n, [] => some (n, [])
  | n, s :: rest =>
    match n.literalChildren.lookup s with
    | some child =>
      match child.descend rest with
      | some (t, ps) => some (t, ps)
      | none => none
    | none =>
      match n.paramChild with
      | some (name, child) =>
        match child.descend rest with
        | some (t, ps) => some (t, (name, s) :: ps)
        | none => none
      | none =>
        match n.wildcardChild with
        | some child => some (child, [("_*", joinSegs (s :: rest))])
        | none => none

/-- Modelled from the spec: `Find(method, path) → (chain, params, status)`.
Failed descent or a terminal node with no method entries at all yields
`NotFound`; entries for other methods only yields `NotAllowed`; an entry
for the requested method yields `Matched` with the stored chain and the
captured params. -/
def find (root : Node) (method path : String) :
    Option Nat × List (String × String) × Status :=
  match root.descend (splitPath path) with
  | none => (none, [], Status.NotFound)
  | some (t, ps) =>
    match t.handlersByMethod.lookup method with
    | some chain => (some chain, ps, Status.Matched)
    | none =>
      if t.handlersByMethod.isEmpty then (none, [], Status.NotFound)
      else (none, [], Status.NotAllowed)

/-! ## Configuration: `New` and its options

`New` (bolt.go lines 46-81) starts from `maxParam = 5` and the three
default fallback handlers, applies the passed options in order, and then
installs the pool factory, which builds each fresh Context with
`params: make(Params, b.maxParam)` (a Go slice of length and capacity
`b.maxParam`), an empty store and cursor `i = -1`. -/

/-- The configurable fields of a `Bolt` value. Fallback handlers are
context transformers, as in the execution model above. -/
structure Cfg where
  maxParam : Nat
  notFoundHandler : Ctx → Ctx
  methodNotAllowedHandler : Ctx → Ctx
  internalServerErrorHandler : Ctx → Ctx

/-- The options exported by bolt.go: `MaxParam`, `NotFoundHandler`,
`MethodNotAllowedHandler`, `InternalServerErrorHandler`. -/
inductive BOption where
  | maxParam (n : Nat)
  | notFoundHandler (h : Ctx → Ctx)
  | methodNotAllowedHandler (h : Ctx → Ctx)
  | internalServerErrorHandler (h : Ctx → Ctx)

/-- Application of one option to the Bolt under construction, mirroring
the closures returned by the four option constructors. -/
def applyOption (b : Cfg) : BOption → Cfg
  | .maxParam n => { b with maxParam := n }
  | .notFoundHandler h => { b with notFoundHandler := h }
  | .methodNotAllowedHandler h => { b with methodNotAllowedHandler := h }
  | .internalServerErrorHandler h => { b with internalServerErrorHandler := h }

/-- New applies options in order: the initial configuration with `maxParam: 5`
and the default fallback handlers, then each option applied in order. -/
def new (opts : List BOption) : Cfg :=
  opts.foldl applyOption
    { maxParam := 5
      notFoundHandler := defaultNotFoundHandler
      methodNotAllowedHandler := defaultMethodNotAllowedHandler
      internalServerErrorHandler := defaultInternalServerErrorHandler }

/-- The Context built by the pool factory installed by `New`:
`params: make(Params, b.maxParam)` (length and capacity `b.maxParam`),
empty store, cursor `i: -1`. -/
def factoryContext (b : Cfg) : Ctx :=
  { params := ⟨List.replicate b.maxParam ("", ""), b.maxParam⟩
    store := []
    i := -1
    l := 0
    halted := false
    chain := none
    req := 0
    resp := 0
    written := none }

end Bolt

namespace Bolt

/-! ## Theorems -/

/-- A helper for C9: folding the option applications over a list that
contains no `MaxParam` option leaves `maxParam` unchanged. -/
theorem foldl_applyOption_maxParam : ∀ (opts : List BOption) (b : Cfg),
    (∀ n, BOption.maxParam n ∉ opts) →
    (opts.foldl applyOption b).maxParam = b.maxParam
  | [], _, _ => rfl
  | o :: rest, b, hno => by
    have hrest : ∀ n, BOption.maxParam n ∉ rest :=
      fun n hmem => hno n (List.mem_cons_of_mem _ hmem)
    cases o with
    | maxParam n => exact absurd (List.mem_cons_self _ _) (hno n)
    | notFoundHandler h => exact foldl_applyOption_maxParam rest _ hrest
    | methodNotAllowedHandler h => exact foldl_applyOption_maxParam rest _ hrest
    | internalServerErrorHandler h => exact foldl_applyOption_maxParam rest _ hrest

/-- C1: the claim states that every registered route's chain is the
middleware-so-far followed by the route's own handlers, fixed once at
registration and never altered by later `Use` or `Handle` calls, for every
interleaving. The code violates this: after `Use(1); Use(2); Use(3)` the
middleware slice has length 3 but capacity 4, so
`Handle("GET", "/a", 4)` and `Handle("GET", "/b", 5)` both write their
route handler into the same spare slot of the shared backing array
(`h = append(b.handlers, h...)` in `Handle` reuses it), and registering
`/b` overwrites the chain previously bound to `/a`: immediately after its
registration the chain of `/a` reads `[1, 2, 3, 4]`, but after `/b` is
registered it reads `[1, 2, 3, 5]`. Only the captured lengths stay
fixed. -/
theorem handle_chain_mutated_by_later_registration :
    (let st4 := (((RegState.init.use [1]).use [2]).use [3]).handle
        "GET" "/a" [4]
     st4.routes.map st4.chainOf = [[1, 2, 3, 4]]) ∧
    (let st5 := ((((RegState.init.use [1]).use [2]).use [3]).handle
        "GET" "/a" [4]).handle "GET" "/b" [5]
     st5.routes.map st5.chainOf = [[1, 2, 3, 5], [1, 2, 3, 5]] ∧
       st5.routes.map Route.l = [4, 4]) := by
  decide

/-- C2: for every `Find` result, `ServeHTTP` runs the route handler
exactly when one was returned, the configured not-found handler exactly
when no handler was returned with status `NotFound`, and the configured
method-not-allowed handler exactly when no handler was returned with
status `NotAllowed`; in each case the other two never run. -/
theorem serveHTTP_selects_exactly_one (r : FindRes) :
    (∀ hh, Ev.runRoute hh ∈ serveHTTP r ↔ r.h = some hh) ∧
    (Ev.runNotFound ∈ serveHTTP r ↔
      r.h = none ∧ r.status = Status.NotFound) ∧
    (Ev.runNotAllowed ∈ serveHTTP r ↔
      r.h = none ∧ r.status = Status.NotAllowed) := by
  obtain ⟨h, s⟩ := r
  cases h <;> cases s <;> simp [serveHTTP, eq_comm]

/-- C3: for every `Find` result, `ServeHTTP` puts the Context back into
the pool exactly once, as the final event after the chain (or fallback
handler) has run — in all three resolution outcomes. -/
theorem serveHTTP_releases_context_once (r : FindRes) :
    ∃ pre, serveHTTP r = pre ++ [Ev.poolPut] ∧ Ev.poolPut ∉ pre := by
  obtain ⟨h, s⟩ := r
  cases h with
  | some hh => exact ⟨[Ev.reset, Ev.runRoute hh], by simp [serveHTTP]⟩
  | none =>
    cases s with
    | Matched => exact ⟨[Ev.reset], by simp [serveHTTP]⟩
    | NotFound => exact ⟨[Ev.reset, Ev.runNotFound], by simp [serveHTTP]⟩
    | NotAllowed => exact ⟨[Ev.reset, Ev.runNotAllowed], by simp [serveHTTP]⟩

/-- C4: the Context is reset before any handler runs: whatever state a
reused Context carries from a previous request, after `reset` its Params
has zero length (capacity retained), its Store is empty, its cursor is at
the before-first-handler position `-1`, and no chain reference remains;
and in every `ServeHTTP` trace the reset is the first event, so it
precedes every handler run. -/
theorem context_reset_before_handlers (c : Ctx) (rw r : Nat) (fr : FindRes) :
    (c.reset rw r).params.data.length = 0 ∧
    (c.reset rw r).params.cap = c.params.cap ∧
    (c.reset rw r).store = [] ∧
    (c.reset rw r).i = -1 ∧
    (c.reset rw r).chain = none ∧
    (serveHTTP fr).head? = some Ev.reset :=
  ⟨rfl, rfl, rfl, rfl, rfl, rfl⟩

/-- C5: for every routing trie, method and path, `find` returns a
(chain, params, status) triple whose status is one of `Matched`,
`NotFound`, `NotAllowed` — resolution is a total three-way result, not a
raised fault. -/
theorem find_status_three_way (root : Node) (method path : String) :
    (find root method path).2.2 = Status.Matched ∨
    (find root method path).2.2 = Status.NotFound ∨
    (find root method path).2.2 = Status.NotAllowed := by
  cases h : (find root method path).2.2 <;> simp

/-- C6: each default fallback handler built in `New` writes its status
code and standard status text (`http.Error` appends a newline) through
the response handle and halts the chain, after which a `Next` call
invokes no further handler — so no user handler in the sequence runs
afterward, whatever the cursor and chain length. -/
theorem default_fallback_handlers_write_and_halt (c : Ctx) :
    (defaultNotFoundHandler c).written = some (404, "Not Found\n") ∧
    (defaultNotFoundHandler c).halted = true ∧
    (defaultNotFoundHandler c).nextSelect = none ∧
    (defaultMethodNotAllowedHandler c).written =
      some (405, "Method Not Allowed\n") ∧
    (defaultMethodNotAllowedHandler c).halted = true ∧
    (defaultMethodNotAllowedHandler c).nextSelect = none ∧
    (defaultInternalServerErrorHandler c).written =
      some (500, "Internal Server Error\n") ∧
    (defaultInternalServerErrorHandler c).halted = true ∧
    (defaultInternalServerErrorHandler c).nextSelect = none := by
  refine ⟨rfl, rfl, rfl, rfl, rfl, rfl, rfl, rfl, rfl⟩

/-- C7: the `MaxParam` option bounds Params capacity — whenever
`MaxParam n` is the last option passed to `New`, the pool factory builds
every Context with a Params sequence of capacity exactly `n`; the
recognized options are exactly `MaxParam`, `NotFoundHandler`,
`MethodNotAllowedHandler` and `InternalServerErrorHandler`, and each
handler option installs the handler that is then run as the entire chain
for its outcome. -/
theorem options_surface (opts : List BOption) (n : Nat) (h : Ctx → Ctx) :
    (factoryContext (new (opts ++ [BOption.maxParam n]))).params.cap = n ∧
    (factoryContext (new (opts ++ [BOption.maxParam n]))).params.data.length
      = n ∧
    (new (opts ++ [BOption.notFoundHandler h])).notFoundHandler = h ∧
    (new (opts ++ [BOption.methodNotAllowedHandler h])).methodNotAllowedHandler
      = h ∧
    (new (opts ++ [BOption.internalServerErrorHandler h])).internalServerErrorHandler
      = h ∧
    (∀ o : BOption, (∃ m, o = BOption.maxParam m) ∨
      (∃ g, o = BOption.notFoundHandler g) ∨
      (∃ g, o = BOption.methodNotAllowedHandler g) ∨
      (∃ g, o = BOption.internalServerErrorHandler g)) := by
  refine ⟨?_, ?_, ?_, ?_, ?_, ?_⟩
  · simp [new, List.foldl_append, applyOption, factoryContext]
  · simp [new, List.foldl_append, applyOption, factoryContext]
  · simp [new, List.foldl_append, applyOption]
  · simp [new, List.foldl_append, applyOption]
  · simp [new, List.foldl_append, applyOption]
  · intro o
    cases o with
    | maxParam m => exact Or.inl ⟨m, rfl⟩
    | notFoundHandler g => exact Or.inr (Or.inl ⟨g, rfl⟩)
    | methodNotAllowedHandler g => exact Or.inr (Or.inr (Or.inl ⟨g, rfl⟩))
    | internalServerErrorHandler g =>
      exact Or.inr (Or.inr (Or.inr ⟨g, rfl⟩))

/-- C8: the internal-server-error handler is never invoked by `ServeHTTP`:
under every `Find` result, the dispatch trace contains no run of the
configured internal-error handler. -/
theorem internal_error_handler_never_runs (r : FindRes) :
    Ev.runInternal ∉ serveHTTP r := by
  obtain ⟨h, s⟩ := r
  cases h <;> cases s <;> simp [serveHTTP]

/-- C9: when `New` receives no `MaxParam` option, `maxParam` keeps its
default 5, so the pool factory builds every Context with a Params
sequence of capacity 5. -/
theorem default_maxparam_five (opts : List BOption)
    (hno : ∀ n, BOption.maxParam n ∉ opts) :
    (factoryContext (new opts)).params.cap = 5 :=
  foldl_applyOption_maxParam opts _ hno

/-- Witness for C9 at the concrete input `opts = []`. -/
theorem default_maxparam_five_witness :
    (∀ n, BOption.maxParam n ∉ ([] : List BOption)) ∧
    (factoryContext (new [])).params.cap = 5 :=
  ⟨fun _ => List.not_mem_nil _,
    default_maxparam_five [] (fun _ => List.not_mem_nil _)⟩

/-- C10: each HTTP-method helper registers exactly what the generic
`Handle` call with the corresponding upper-case method name registers,
for every state, path and handler list. -/
theorem method_helpers_delegate_to_handle (st : RegState) (path : String)
    (hs : List Nat) :
    st.connect path hs = st.handle "CONNECT" path hs ∧
    st.delete path hs = st.handle "DELETE" path hs ∧
    st.get path hs = st.handle "GET" path hs ∧
    st.head path hs = st.handle "HEAD" path hs ∧
    st.options path hs = st.handle "OPTIONS" path hs ∧
    st.patch path hs = st.handle "PATCH" path hs ∧
    st.post path hs = st.handle "POST" path hs ∧
    st.put path hs = st.handle "PUT" path hs ∧
    st.trace path hs = st.handle "TRACE" path hs :=
  ⟨rfl, rfl, rfl, rfl, rfl, rfl, rfl, rfl, rfl⟩

/-- Witness for C2 at a concrete `Find` result (a matched route handler). -/
theorem serveHTTP_selects_exactly_one_witness :
    (∀ hh, Ev.runRoute hh ∈ serveHTTP ⟨some 7, Status.Matched⟩ ↔
      (FindRes.mk (some 7) Status.Matched).h = some hh) ∧
    (Ev.runNotFound ∈ serveHTTP ⟨some 7, Status.Matched⟩ ↔
      (FindRes.mk (some 7) Status.Matched).h = none ∧
        (FindRes.mk (some 7) Status.Matched).status = Status.NotFound) ∧
    (Ev.runNotAllowed ∈ serveHTTP ⟨some 7, Status.Matched⟩ ↔
      (FindRes.mk (some 7) Status.Matched).h = none ∧
        (FindRes.mk (some 7) Status.Matched).status = Status.NotAllowed) :=
  serveHTTP_selects_exactly_one ⟨some 7, Status.Matched⟩

end Bolt
